import Mathlib

/-!
Shallow embedding of the QueryWave core (src/validator.py, src/schema_parser.py,
src/app.py) and proofs about it.

Strings are modelled as `List Char` (`Chars`).  Python's regex scanners are
embedded as hand-written character scanners, one per pattern, each documented
with the pattern it implements.  Fuel arguments (always instantiated with
`length + 1`-style bounds by the wrappers) keep every definition structurally
recursive so that the kernel can evaluate them.
-/

set_option maxRecDepth 100000

namespace QueryWave

abbrev Chars := List Char

/-- Coerce a string literal to the `List Char` representation. -/
def s (x : String) : Chars := x.data

/-- The single-quote character (code point 39). -/
def sq : Char := Char.ofNat 39

/-- The double-quote character (code point 34). -/
def dq : Char := Char.ofNat 34

/-- The backslash character (code point 92). -/
def bsl : Char := Char.ofNat 92

/-- Python regex `\w` / `[A-Za-z0-9_]` over ASCII. -/
def isWordChar (c : Char) : Bool := c.isAlpha || c.isDigit || c = '_'

/-- Python `[A-Za-z_]`, the first character of an identifier. -/
def isIdentStart (c : Char) : Bool := c.isAlpha || c = '_'

/-- Python `\s` / `str.strip` whitespace over ASCII. -/
def isSpaceChar (c : Char) : Bool :=
  c = ' ' || c = Char.ofNat 9 || c = Char.ofNat 10 || c = Char.ofNat 13 ||
  c = Char.ofNat 11 || c = Char.ofNat 12

/-- Python `str.lower` (ASCII). -/
def lowerStr (l : Chars) : Chars := l.map Char.toLower

/-- Python `str.strip()` on the left. -/
def stripL (l : Chars) : Chars := l.dropWhile isSpaceChar

/-- Python `str.strip()`: drop leading and trailing whitespace. -/
def pyStrip (l : Chars) : Chars := ((stripL l).reverse.dropWhile isSpaceChar).reverse

/-- Whether `a` is a prefix of `b` (as a Bool). -/
def isPre : Chars → Chars → Bool
  | [], _ => true
  | _ :: _, [] => false
  | a :: as, b :: bs => a = b && isPre as bs

/-- Python `a in b` substring test. -/
def substrB (n : Chars) : Chars → Bool
  | [] => isPre n []
  | c :: rest => isPre n (c :: rest) || substrB n rest

/-- Lexicographic order on code points, as Python compares strings. -/
def lexLe : Chars → Chars → Bool
  | [], _ => true
  | _ :: _, [] => false
  | a :: as, b :: bs => if a = b then lexLe as bs else decide (a < b)

/-- Insert into a lexicographically sorted list. -/
def insSorted (a : Chars) : List Chars → List Chars
  | [] => [a]
  | b :: r => if lexLe a b then a :: b :: r else b :: insSorted a r

/-- Insertion sort by code-point order. -/
def sortStrs : List Chars → List Chars
  | [] => []
  | a :: r => insSorted a (sortStrs r)

/-- De-duplicate keeping the first occurrence of each element. -/
def dedupAcc {α : Type} [DecidableEq α] (seen : List α) : List α → List α
  | [] => []
  | a :: r => if a ∈ seen then dedupAcc seen r else a :: dedupAcc (a :: seen) r

/-- Python `sorted(set(l))` in Python: distinct elements in code-point order. -/
def sortedSet (l : List Chars) : List Chars := sortStrs (dedupAcc [] l)

/-- Python dict assignment `d[k] = v`: replace in place or append. -/
def upsert {β : Type} : List (Chars × β) → Chars → β → List (Chars × β)
  | [], k, v => [(k, v)]
  | (k', v') :: rest, k, v =>
    if k' = k then (k, v) :: rest else (k', v') :: upsert rest k v

/-- Python dict lookup (with upsert-built lists, first match is the value). -/
def lookupA {β : Type} : List (Chars × β) → Chars → Option β
  | [], _ => none
  | (k', v) :: rest, k => if k' = k then some v else lookupA rest k

/-- Keys of an association list. -/
def keysA {β : Type} (l : List (Chars × β)) : List Chars := l.map Prod.fst

/-- Split on an exact separator character, keeping empty segments
(Python `str.split(sep)`). -/
def splitCh (sep : Char) : Chars → List Chars
  | [] => [[]]
  | c :: rest =>
    if c = sep then [] :: splitCh sep rest
    else
      match splitCh sep rest with
      | [] => [[c]]
      | p :: ps => (c :: p) :: ps

/-- Last element of a list of segments (`split(...)[-1]`), empty as fallback. -/
def lastSeg : List Chars → Chars
  | [] => []
  | [p] => p
  | _ :: p :: ps => lastSeg (p :: ps)

/-- First segment (`split(...)[0]`), empty as fallback. -/
def firstSeg : List Chars → Chars
  | [] => []
  | p :: _ => p

-- ---------------------------------------------------------------------------
-- Small parsing steps shared by the regex scanners.
-- Each returns the remaining input (and a payload where relevant).
-- ---------------------------------------------------------------------------

/-- Consume one or more whitespace characters (`\s+`). -/
def pWs1 (l : Chars) : Option Chars :=
  match l with
  | c :: rest => if isSpaceChar c then some (rest.dropWhile isSpaceChar) else none
  | [] => none

/-- Consume zero or more whitespace characters (`\s*`). -/
def pWs0 (l : Chars) : Chars := l.dropWhile isSpaceChar

/-- Consume a maximal identifier `[A-Za-z_][A-Za-z0-9_]*`. -/
def pIdent (l : Chars) : Option (Chars × Chars) :=
  match l with
  | c :: rest =>
    if isIdentStart c then some (c :: rest.takeWhile isWordChar, rest.dropWhile isWordChar)
    else none
  | [] => none

/-- Consume a maximal word run `\w+` (may start with a digit). -/
def pWordRun (l : Chars) : Option (Chars × Chars) :=
  match l with
  | c :: rest =>
    if isWordChar c then some (c :: rest.takeWhile isWordChar, rest.dropWhile isWordChar)
    else none
  | [] => none

/-- Consume the literal word `kw` (given lowercase) case-insensitively. -/
def pKwCI : Chars → Chars → Option Chars
  | [], l => some l
  | _ :: _, [] => none
  | k :: ks, c :: rest => if c.toLower = k then pKwCI ks rest else none

/-- Consume one exact character. -/
def pChar (ch : Char) (l : Chars) : Option Chars :=
  match l with
  | c :: rest => if c = ch then some rest else none
  | [] => none

/-- Regex word boundary `\b` between a previous character and the rest of the
input: holds iff exactly one side is a word character (end of input counts as
non-word). -/
def bdryAfter (prev : Char) (l : Chars) : Bool :=
  match l with
  | [] => isWordChar prev
  | c :: _ => isWordChar prev ≠ isWordChar c

-- ---------------------------------------------------------------------------
-- src/validator.py: regex scanners
-- ---------------------------------------------------------------------------

/-- One attempted match of `FROM_JOIN_RE`
`\b(from|join)\s+([A-Za-z_]\w*)\s+(?:as\s+)?([A-Za-z_]\w*)\b` at the head of
the input (the word boundary before `from|join` is checked by the caller).
Returns `(table, alias, rest)`. -/
def tryFJ (l : Chars) : Option (Chars × Chars × Chars) := do
  let r1 ←
    match l with
    | c :: _ =>
      if c.toLower = 'f' then pKwCI (s "from") l
      else if c.toLower = 'j' then pKwCI (s "join") l
      else none
    | [] => none
  let r2 ← pWs1 r1
  let (tbl, r3) ← pIdent r2
  let r4 ← pWs1 r3
  -- greedy optional `(?:as\s+)?` before the alias, with fallback
  match pKwCI (s "as") r4 with
  | some r5 =>
    match pWs1 r5 with
    | some r6 =>
      match pIdent r6 with
      | some (al, r7) => some (tbl, al, r7)
      | none => (pIdent r4).map fun (al, r7) => (tbl, al, r7)
    | none => (pIdent r4).map fun (al, r7) => (tbl, al, r7)
  | none => (pIdent r4).map fun (al, r7) => (tbl, al, r7)

/-- Python `FROM_JOIN_RE.finditer`: leftmost, non-overlapping scan.  `bnd` is true
when the previous character is not a word character (so `\b` holds before an
identifier), the fuel is an upper bound on the number of steps. -/
def scanFJAux : Nat → Bool → Chars → List (Chars × Chars)
  | 0, _, _ => []
  | _ + 1, _, [] => []
  | fuel + 1, bnd, c :: rest =>
    match (if bnd then tryFJ (c :: rest) else none) with
    | some (tbl, al, r) => (tbl, al) :: scanFJAux fuel false r
    | none => scanFJAux fuel (!isWordChar c) rest

/-- All `(table, alias)` pairs matched by `FROM_JOIN_RE`. -/
def scanFJ (l : Chars) : List (Chars × Chars) := scanFJAux (l.length + 1) true l

/-- One attempted match of `QUAL_COL_RE` `\b([A-Za-z_]\w*)\.([A-Za-z_]\w*)\b`
at the head of the input.  Returns `(qualifier, column, rest)`. -/
def tryQual (l : Chars) : Option (Chars × Chars × Chars) := do
  let (a, r1) ← pIdent l
  let r2 ← pChar '.' r1
  let (c, r3) ← pIdent r2
  some (a, c, r3)

/-- Python `QUAL_COL_RE.findall`: leftmost, non-overlapping. -/
def scanQualAux : Nat → Bool → Chars → List (Chars × Chars)
  | 0, _, _ => []
  | _ + 1, _, [] => []
  | fuel + 1, bnd, c :: rest =>
    match (if bnd then tryQual (c :: rest) else none) with
    | some (a, co, r) => (a, co) :: scanQualAux fuel false r
    | none => scanQualAux fuel (!isWordChar c) rest

/-- All `(qualifier, column)` pairs matched by `QUAL_COL_RE`. -/
def scanQual (l : Chars) : List (Chars × Chars) := scanQualAux (l.length + 1) true l

/-- One attempted match of `ON_EQ_RE`
`\bon\b\s+(a1)\.(c1)\s*=\s*(a2)\.(c2)` at the head of the input. -/
def tryOnEq (l : Chars) : Option ((Chars × Chars × Chars × Chars) × Chars) := do
  let r1 ← pKwCI (s "on") l
  let r2 ← pWs1 r1            -- `\b` after `on` is implied by `\s+`
  let (a1, r3) ← pIdent r2
  let r4 ← pChar '.' r3
  let (c1, r5) ← pIdent r4
  let r6 := pWs0 r5
  let r7 ← pChar '=' r6
  let r8 := pWs0 r7
  let (a2, r9) ← pIdent r8
  let r10 ← pChar '.' r9
  let (c2, r11) ← pIdent r10
  some ((a1, c1, a2, c2), r11)

/-- Python `ON_EQ_RE.finditer`. -/
def scanOnEqAux : Nat → Bool → Chars → List (Chars × Chars × Chars × Chars)
  | 0, _, _ => []
  | _ + 1, _, [] => []
  | fuel + 1, bnd, c :: rest =>
    match (if bnd then tryOnEq (c :: rest) else none) with
    | some (g, r) => g :: scanOnEqAux fuel false r
    | none => scanOnEqAux fuel (!isWordChar c) rest

/-- All `(a1, c1, a2, c2)` groups matched by `ON_EQ_RE`. -/
def scanOnEq (l : Chars) : List (Chars × Chars × Chars × Chars) :=
  scanOnEqAux (l.length + 1) true l

/-- Comparison operator of `QUAL_COMP_LIT_RE`: `>=|<=|<>|!=|=|>|<`
(two-character alternatives first).  Returns `(op, rest)`. -/
def pCompOp (l : Chars) : Option (Chars × Chars) :=
  match l with
  | '>' :: '=' :: r => some (s ">=", r)
  | '<' :: '=' :: r => some (s "<=", r)
  | '<' :: '>' :: r => some (s "<>", r)
  | '!' :: '=' :: r => some (s "!=", r)
  | '=' :: r => some (s "=", r)
  | '>' :: r => some (s ">", r)
  | '<' :: r => some (s "<", r)
  | _ => none

/-- Literal of `QUAL_COMP_LIT_RE`: `'[^']*'|\d+(?:\.\d+)?|null|true|false`
(case-insensitive words).  Returns `(literal, rest)`. -/
def pCompLitVal (l : Chars) : Option (Chars × Chars) :=
  match l with
  | c :: rest =>
    if c = sq then
      -- '[^']*'
      let body := rest.takeWhile (fun x => x ≠ sq)
      match rest.dropWhile (fun x => x ≠ sq) with
      | c2 :: r2 => some (c :: body ++ [c2], r2)
      | [] => none
    else if c.isDigit then
      let ds := c :: rest.takeWhile Char.isDigit
      let r1 := rest.dropWhile Char.isDigit
      match r1 with
      | '.' :: d2 :: r2 =>
        if d2.isDigit then
          some (ds ++ '.' :: d2 :: r2.takeWhile Char.isDigit, r2.dropWhile Char.isDigit)
        else some (ds, r1)
      | _ => some (ds, r1)
    else
      match pIdent l with
      | some (w, r) =>
        if lowerStr w = s "null" || lowerStr w = s "true" || lowerStr w = s "false" then
          some (w, r)
        else none
      | none => none
  | [] => none

/-- One attempted match of `QUAL_COMP_LIT_RE`
`\b(a)\.(c)\s*(op)\s*(lit)\b` at the head of the input.
Returns `((a, c, op, lit), rest)`; the trailing `\b` is checked against the
last literal character. -/
def tryCompLit (l : Chars) : Option ((Chars × Chars × Chars × Chars) × Chars) := do
  let (a, r1) ← pIdent l
  let r2 ← pChar '.' r1
  let (c, r3) ← pIdent r2
  let r4 := pWs0 r3
  let (op, r5) ← pCompOp r4
  let r6 := pWs0 r5
  let (lit, r7) ← pCompLitVal r6
  match lit.getLast? with
  | some last => if bdryAfter last r7 then some ((a, c, op, lit), r7) else none
  | none => none

/-- Python `QUAL_COMP_LIT_RE.finditer`. -/
def scanCompLitAux : Nat → Bool → Chars → List (Chars × Chars × Chars × Chars)
  | 0, _, _ => []
  | _ + 1, _, [] => []
  | fuel + 1, bnd, c :: rest =>
    match (if bnd then tryCompLit (c :: rest) else none) with
    | some (g, r) =>
      let prevWord := match g.2.2.2.getLast? with
        | some ch => isWordChar ch
        | none => false
      g :: scanCompLitAux fuel (!prevWord) r
    | none => scanCompLitAux fuel (!isWordChar c) rest

/-- All `(a, c, op, lit)` groups matched by `QUAL_COMP_LIT_RE`. -/
def scanCompLit (l : Chars) : List (Chars × Chars × Chars × Chars) :=
  scanCompLitAux (l.length + 1) true l

/-- One attempted match of `QUAL_LIKE_RE`
`\b(a)\.(c)\s+(like|ilike)\s+('[^']*')` at the head of the input. -/
def tryLike (l : Chars) : Option ((Chars × Chars × Chars × Chars) × Chars) := do
  let (a, r1) ← pIdent l
  let r2 ← pChar '.' r1
  let (c, r3) ← pIdent r2
  let r4 ← pWs1 r3
  let (op, r5) ←
    match r4 with
    | ch :: _ =>
      if ch.toLower = 'l' then (pKwCI (s "like") r4).map fun r => (s "like", r)
      else if ch.toLower = 'i' then (pKwCI (s "ilike") r4).map fun r => (s "ilike", r)
      else none
    | [] => none
  let r6 ← pWs1 r5
  -- the operator is a whole word: `\s+` after it implies the needed break
  let (lit, r7) ←
    match r6 with
    | ch :: rest =>
      if ch = sq then
        let body := rest.takeWhile (fun x => x ≠ sq)
        match rest.dropWhile (fun x => x ≠ sq) with
        | c2 :: r2 => some (ch :: body ++ [c2], r2)
        | [] => none
      else none
    | [] => none
  some ((a, c, op, lit), r7)

/-- Python `QUAL_LIKE_RE.finditer`. -/
def scanLikeAux : Nat → Bool → Chars → List (Chars × Chars × Chars × Chars)
  | 0, _, _ => []
  | _ + 1, _, [] => []
  | fuel + 1, bnd, c :: rest =>
    match (if bnd then tryLike (c :: rest) else none) with
    | some (g, r) => g :: scanLikeAux fuel true r   -- a match ends at a quote
    | none => scanLikeAux fuel (!isWordChar c) rest

/-- All `(a, c, op, lit)` groups matched by `QUAL_LIKE_RE`. -/
def scanLike (l : Chars) : List (Chars × Chars × Chars × Chars) :=
  scanLikeAux (l.length + 1) true l

/-- Python `IDENT_RE.findall` `\b([A-Za-z_]\w*)\b`: every maximal word run whose
first character is a letter or underscore. -/
def scanIdentsAux : Nat → Chars → List Chars
  | 0, _ => []
  | _ + 1, [] => []
  | fuel + 1, c :: rest =>
    if isWordChar c then
      let run := c :: rest.takeWhile isWordChar
      let r := rest.dropWhile isWordChar
      if isIdentStart c then run :: scanIdentsAux fuel r else scanIdentsAux fuel r
    else scanIdentsAux fuel rest

/-- All identifier tokens of `IDENT_RE`. -/
def scanIdents (l : Chars) : List Chars := scanIdentsAux (l.length + 1) l

/-- Python `re.search(rf"\b[a-zA-Z_]\w*\.{tok}\b", sqlL)`: the token already appears
as the right side of some `alias.tok` in the (lowercased) text. -/
def qualElseAux (tok : Chars) : Nat → Bool → Chars → Bool
  | 0, _, _ => false
  | _ + 1, _, [] => false
  | fuel + 1, bnd, c :: rest =>
    let hit :=
      if bnd then
        match tryQual (c :: rest) with
        | some (_, co, r) => co = tok && !(match r with
            | c2 :: _ => isWordChar c2
            | [] => false)
        | none => false
      else false
    if hit then true else qualElseAux tok fuel (!isWordChar c) rest

/-- Whether `tok` occurs qualified (`something.tok`) anywhere in the text. -/
def qualElse (tok : Chars) (l : Chars) : Bool := qualElseAux tok (l.length + 1) true l

/-- Scan for the first closing quote whose predecessor is not a backslash
(the lazy `.*?(?<!\\)'` part of the `_strip_strings` pattern); `prev` is the
previous character. -/
def stripStringsClose : Nat → Char → Chars → Option Chars
  | 0, _, _ => none
  | _ + 1, _, [] => none
  | fuel + 1, prev, c :: rest =>
    if c = sq && prev ≠ bsl then some rest
    else stripStringsClose fuel c rest

/-- Main scan of `_strip_strings`:
`re.sub(r"'.*?(?<!\\)'", "''", sql)` replaces each lazily-matched
single-quoted literal (closing quote not preceded by a backslash) with an
empty literal `''`. -/
def stripStringsAux : Nat → Chars → Chars
  | 0, l => l
  | _ + 1, [] => []
  | fuel + 1, c :: rest =>
    if c = sq then
      -- find the first closing quote whose predecessor is not a backslash
      match stripStringsClose fuel c rest with
      | some r => sq :: sq :: stripStringsAux fuel r
      | none => c :: stripStringsAux fuel rest
    else c :: stripStringsAux fuel rest

/-- Python `_strip_strings(sql)`. -/
def stripStrings (l : Chars) : Chars := stripStringsAux (l.length + 1) l

-- ---------------------------------------------------------------------------
-- Schema JSON model (the dict produced by to_schema_json / consumed by the
-- validator).
-- ---------------------------------------------------------------------------

/-- One serialized foreign-key edge `{"column","ref_table","ref_column"}`. -/
structure FKJson where
  column : Chars
  ref_table : Chars
  ref_column : Chars
  deriving DecidableEq, Repr

/-- One serialized table: `{"columns": {...}, "primary_key": [...],
"foreign_keys": [...]}`; `columns` is an insertion-ordered dict. -/
structure TableJson where
  columns : List (Chars × Chars)
  primary_key : List Chars
  foreign_keys : List FKJson
  deriving DecidableEq, Repr

/-- The schema dict `{"tables": {...}}`. -/
structure SchemaJson where
  tables : List (Chars × TableJson)
  deriving DecidableEq, Repr

-- ---------------------------------------------------------------------------
-- src/validator.py: pure functions
-- ---------------------------------------------------------------------------

/-- Python `SQL_KEYWORDS`. -/
def SQL_KEYWORDS : List Chars :=
  [s "select", s "from", s "join", s "inner", s "left", s "right", s "full",
   s "outer", s "cross", s "on", s "where", s "group", s "by", s "order",
   s "having", s "limit", s "offset", s "fetch", s "union", s "all",
   s "distinct", s "as", s "and", s "or", s "not", s "null", s "is", s "in",
   s "like", s "ilike", s "between", s "case", s "when", s "then", s "else",
   s "end", s "asc", s "desc", s "into", s "true", s "false"]

/-- Python `SQL_FUNCTIONS`. -/
def SQL_FUNCTIONS : List Chars :=
  [s "count", s "sum", s "avg", s "min", s "max", s "coalesce", s "now",
   s "date_trunc", s "lower", s "upper"]

/-- Python `build_alias_map(sql)`: alias → table, both lowercased, last wins. -/
def build_alias_map (sql : Chars) : List (Chars × Chars) :=
  (scanFJ sql).foldl (fun m p => upsert m (lowerStr p.2) (lowerStr p.1)) []

/-- Python `normalize_type(db_type)`: coarse type families by substring matching. -/
def normalize_type (dbType : Chars) : Chars :=
  let t := lowerStr dbType
  if [s "int", s "serial", s "numeric", s "decimal", s "real", s "double",
      s "float"].any (fun x => substrB x t) then s "numeric"
  else if [s "text", s "varchar", s "char", s "uuid"].any (fun x => substrB x t) then
    s "text"
  else if substrB (s "bool") t then s "boolean"
  else if [s "date", s "time", s "timestamp", s "timestamptz"].any
      (fun x => substrB x t) then s "datetime"
  else s "other"

/-- Python `literal_type(lit)`. -/
def literal_type (lit : Chars) : Chars :=
  let litL := lowerStr lit
  if litL = s "null" then s "null"
  else if litL = s "true" || litL = s "false" then s "boolean"
  else if (match lit with | c :: _ => c = sq | [] => false) &&
          (match lit.getLast? with | some c => c = sq | none => false) then s "text"
  else s "numeric"

/-- One entry of `invalid_joins`. -/
structure InvalidJoin where
  left : Chars
  right : Chars
  reason : Chars
  deriving DecidableEq, Repr

/-- One entry of `unknown_columns`: `{"table","alias","column"}`
(the dict key `"alias"` is the field `aliasName`). -/
structure UnknownColumn where
  table : Chars
  aliasName : Chars
  column : Chars
  deriving DecidableEq, Repr

/-- One entry of `unqualified_columns_resolved`: `{"column","table"}`. -/
structure ResolvedCol where
  column : Chars
  table : Chars
  deriving DecidableEq, Repr

/-- One entry of `ambiguous_unqualified_columns`: `{"column","tables"}`. -/
structure AmbiguousCol where
  column : Chars
  tables : List Chars
  deriving DecidableEq, Repr

/-- One entry of `type_mismatches`.  `tyL`/`tyR` are `column_type`/
`literal_type` for comparison, equality and like entries and `left_type`/
`right_type` for join entries. -/
structure TypeMismatch where
  kind : Chars
  expr : Chars
  tyL : Chars
  tyR : Chars
  reason : Chars
  deriving DecidableEq, Repr

/-- The dict returned by `validate_against_schema`. -/
structure ValidationReport where
  tables_detected : List Chars
  missing_tables : List Chars
  alias_map : List (Chars × Chars)
  unknown_aliases : List Chars
  unknown_columns : List UnknownColumn
  unqualified_columns_resolved : List ResolvedCol
  ambiguous_unqualified_columns : List AmbiguousCol
  unknown_identifiers : List Chars
  invalid_joins : List InvalidJoin
  join_warnings : List Chars
  type_mismatches : List TypeMismatch
  notes : List Chars
  deriving DecidableEq, Repr

/-- Python `fk_join_check(sql, schema_json, alias_map)`. -/
def fk_join_check (sql : Chars) (schema : SchemaJson)
    (aliasMap : List (Chars × Chars)) : List InvalidJoin × List Chars :=
  let fkEdges : List (Chars × Chars × Chars × Chars) :=
    schema.tables.flatMap fun p =>
      p.2.foreign_keys.map fun fk =>
        (lowerStr p.1, lowerStr fk.column, lowerStr fk.ref_table, lowerStr fk.ref_column)
  let pkMap : List (Chars × List Chars) :=
    schema.tables.map fun p => (lowerStr p.1, p.2.primary_key.map lowerStr)
  (scanOnEq sql).foldl
    (fun st g =>
      let (invalid, warnings) := st
      let a1 := lowerStr g.1
      let c1 := lowerStr g.2.1
      let a2 := lowerStr g.2.2.1
      let c2 := lowerStr g.2.2.2
      match lookupA aliasMap a1, lookupA aliasMap a2 with
      | some t1', some t2' =>
        let t1 := lowerStr t1'
        let t2 := lowerStr t2'
        if (t1, c1, t2, c2) ∈ fkEdges || (t2, c2, t1, c1) ∈ fkEdges then
          (invalid, warnings)
        else if (match lookupA pkMap t1 with | some pk => c1 ∈ pk | none => false) &&
                (match lookupA pkMap t2 with | some pk => c2 ∈ pk | none => false) &&
                c1 = c2 then
          (invalid, warnings ++
            [s "JOIN " ++ t1 ++ s "." ++ c1 ++ s " = " ++ t2 ++ s "." ++ c2 ++
             s " is PK=PK with no FK declared; confirm intended relationship."])
        else
          (invalid ++
            [⟨t1 ++ s "." ++ c1, t2 ++ s "." ++ c2,
              s "No FK relationship found for this join condition"⟩], warnings)
      | _, _ =>
        (invalid, warnings ++
          [s "JOIN uses unknown alias in ON: " ++ a1 ++ s "." ++ c1 ++ s " = " ++
           a2 ++ s "." ++ c2]))
    ([], [])

/-- The qualified-reference pass of `validate_against_schema` (the loop over
`QUAL_COL_RE.findall`), building `(unknown_aliases, unknown_columns,
unknown_identifiers)`. -/
def qualStep (aliasMap : List (Chars × Chars)) (colsBy : List (Chars × List Chars))
    (st : List Chars × List UnknownColumn × List Chars) (ac : Chars × Chars) :
    List Chars × List UnknownColumn × List Chars :=
  let (ua, uc, ui) := st
  let aL := lowerStr ac.1
  let cL := lowerStr ac.2
  match lookupA aliasMap aL with
  | none =>
    if aL ∉ keysA colsBy && aL ∉ ua then (ua ++ [aL], uc, ui) else (ua, uc, ui)
  | some t =>
    let cols := match lookupA colsBy t with | some cs => cs | none => []
    if cL ∉ cols then
      (ua, uc ++ [⟨t, aL, cL⟩], if cL ∉ ui then ui ++ [cL] else ui)
    else (ua, uc, ui)

/-- Fold of `qualStep` over the qualified references. -/
def qualFold (aliasMap : List (Chars × Chars)) (colsBy : List (Chars × List Chars))
    (refs : List (Chars × Chars)) : List Chars × List UnknownColumn × List Chars :=
  refs.foldl (qualStep aliasMap colsBy) ([], [], [])

/-- The unqualified-identifier pass: the loop over `candidates` with the
`seen_unqualified` set (modelled in insertion order), producing
`(seen, resolved, ambiguous)`. -/
def unqualFold (detected : List (Chars × List Chars)) (sqlL : Chars)
    (candidates : List Chars) :
    List Chars × List ResolvedCol × List AmbiguousCol :=
  candidates.foldl
    (fun st tok =>
      let (seen, res, amb) := st
      if tok ∈ seen then st
      else
        let seen' := seen ++ [tok]
        if qualElse tok sqlL then (seen', res, amb)
        else
          let owners := (detected.filter (fun p => tok ∈ p.2)).map Prod.fst
          if owners.length = 1 then
            (seen', res ++ [⟨tok, firstSeg owners⟩], amb)
          else if owners.length > 1 then
            (seen', res, amb ++ [⟨tok, owners⟩])
          else (seen', res, amb))
    ([], [], [])

/-- The `cols_by_table` dict comprehension of `validate_against_schema`:
lowered table name → set of lowered column names. -/
def colsByTable (schema : SchemaJson) : List (Chars × List Chars) :=
  schema.tables.foldl
    (fun m p => upsert m (lowerStr p.1) (p.2.columns.map (fun c => lowerStr c.1))) []

/-- The `type_by_table` dict comprehension of `validate_against_schema`:
lowered table name → (lowered column name → coarse type). -/
def typeByTable (schema : SchemaJson) : List (Chars × List (Chars × Chars)) :=
  schema.tables.foldl
    (fun m p => upsert m (lowerStr p.1)
      (p.2.columns.foldl (fun tm c => upsert tm (lowerStr c.1) (normalize_type c.2)) []))
    []

/-- Python `validate_against_schema(sql, schema_json)`. -/
def validate_against_schema (sql : Chars) (schema : SchemaJson) : ValidationReport :=
  let sql0 := stripStrings sql
  let sqlL := lowerStr sql0
  let aliasMap := build_alias_map sql0
  let tables_detected := sortedSet (aliasMap.map Prod.snd)
  let lowKeys := schema.tables.map (fun p => lowerStr p.1)
  let missing_tables := tables_detected.filter (fun t => t ∉ lowKeys)
  let colsBy := colsByTable schema
  let typeBy := typeByTable schema
  let qf := qualFold aliasMap colsBy (scanQual sql0)
  let unknown_aliases := qf.1
  let unknown_columns := qf.2.1
  let ui0 := qf.2.2
  -- candidate unqualified tokens
  let candidates : List Chars :=
    ((scanIdents sql0).map lowerStr).filter fun tokL =>
      tokL ∉ SQL_KEYWORDS && tokL ∉ SQL_FUNCTIONS &&
      tokL ∉ keysA aliasMap && tokL ∉ keysA colsBy
  let detected : List (Chars × List Chars) :=
    tables_detected.filterMap fun t =>
      match lookupA colsBy t with
      | some cs => some (t, cs)
      | none => none
  let uf := unqualFold detected sqlL candidates
  let seen := uf.1
  let unqualified_columns_resolved := uf.2.1
  let ambiguous_unqualified_columns := uf.2.2
  let resolvedCols := unqualified_columns_resolved.map ResolvedCol.column
  let ambiguousCols := ambiguous_unqualified_columns.map AmbiguousCol.column
  let unknown_identifiers :=
    seen.foldl
      (fun ui tokL =>
        if tokL ∈ resolvedCols || tokL ∈ ambiguousCols then ui
        else if tokL ∉ ui then ui ++ [tokL] else ui)
      ui0
  -- type-aware checks
  let colType : Chars → Chars → Option Chars := fun a c =>
    match lookupA aliasMap (lowerStr a) with
    | none => none
    | some t =>
      match lookupA typeBy t with
      | some tm => lookupA tm (lowerStr c)
      | none => none
  let tm1 : List TypeMismatch :=
    (scanCompLit sql0).foldl
      (fun acc g =>
        let a := g.1
        let c := g.2.1
        let op := lowerStr g.2.2.1
        let lit := g.2.2.2
        match colType a c with
        | none => acc
        | some ct =>
          let lt := literal_type lit
          if lt = s "null" then acc
          else if op ∈ [s ">", s "<", s ">=", s "<="] then
            if ct ≠ s "numeric" then
              acc ++ [⟨s "comparison", a ++ s "." ++ c ++ s " " ++ op ++ s " " ++ lit,
                       ct, lt,
                       s "Non-numeric column used with numeric comparison operator"⟩]
            else acc
          else if op ∈ [s "=", s "!=", s "<>"] then
            if ct ∈ [s "numeric", s "text", s "boolean"] &&
               lt ∈ [s "numeric", s "text", s "boolean"] && ct ≠ lt then
              acc ++ [⟨s "equality", a ++ s "." ++ c ++ s " " ++ op ++ s " " ++ lit,
                       ct, lt, s "Column type does not match literal type"⟩]
            else acc
          else acc)
      []
  let tm2 : List TypeMismatch :=
    (scanLike sql0).foldl
      (fun acc g =>
        let a := g.1
        let c := g.2.1
        let op := lowerStr g.2.2.1
        let lit := g.2.2.2
        match colType a c with
        | none => acc
        | some ct =>
          if ct ≠ s "text" then
            acc ++ [⟨s "like", a ++ s "." ++ c ++ s " " ++ op ++ s " " ++ lit,
                     ct, s "text", s "LIKE/ILIKE used on non-text column"⟩]
          else acc)
      tm1
  let type_mismatches : List TypeMismatch :=
    (scanOnEq sql0).foldl
      (fun acc g =>
        let a1 := g.1
        let c1 := g.2.1
        let a2 := g.2.2.1
        let c2 := g.2.2.2
        match colType a1 c1, colType a2 c2 with
        | some t1, some t2 =>
          if t1 ≠ t2 && t1 ≠ s "other" && t2 ≠ s "other" then
            acc ++ [⟨s "join", a1 ++ s "." ++ c1 ++ s " = " ++ a2 ++ s "." ++ c2,
                     t1, t2, s "Join compares different column types"⟩]
          else acc
        | _, _ => acc)
      tm2
  let fk := fk_join_check sql0 schema aliasMap
  let invalid_joins := fk.1
  let join_warnings := fk.2
  let notes : List Chars :=
    (if missing_tables ≠ [] then
      [s "One or more referenced tables are missing from the schema."] else []) ++
    (if unknown_columns ≠ [] then
      [s "One or more qualified columns (alias.column) do not exist in the referenced table."] else []) ++
    (if unknown_aliases ≠ [] then
      [s "One or more aliases referenced in SQL were not defined in FROM/JOIN."] else []) ++
    (if ambiguous_unqualified_columns ≠ [] then
      [s "Some unqualified column names are ambiguous; prefer alias.column."] else []) ++
    (if invalid_joins ≠ [] then
      [s "One or more JOIN conditions do not match any FK relationship."] else []) ++
    (if type_mismatches ≠ [] then
      [s "One or more comparisons/joins appear to use incompatible data types."] else [])
  { tables_detected := tables_detected
    missing_tables := missing_tables
    alias_map := aliasMap
    unknown_aliases := unknown_aliases
    unknown_columns := unknown_columns
    unqualified_columns_resolved := unqualified_columns_resolved
    ambiguous_unqualified_columns := ambiguous_unqualified_columns
    unknown_identifiers := unknown_identifiers
    invalid_joins := invalid_joins
    join_warnings := join_warnings
    type_mismatches := type_mismatches.take 50
    notes := notes }

/-- The dict returned by `classify_issue`:
`{"class": ..., "reason": ..., "action": ...}`. -/
structure Classification where
  cls : Chars
  reason : Chars
  action : Chars
  deriving DecidableEq, Repr

/-- Python `classify_issue(validation, question, schema_json)`. -/
def classify_issue (v : ValidationReport) (question : Chars) (_schema : SchemaJson) :
    Classification :=
  let hardSignals :=
    !v.missing_tables.isEmpty || !v.unknown_columns.isEmpty ||
    !v.unknown_aliases.isEmpty || !v.invalid_joins.isEmpty ||
    !v.type_mismatches.isEmpty
  if !hardSignals then
    ⟨s "ok", s "No major validation issues detected.", s "stop"⟩
  else
    let q := lowerStr question
    if !v.missing_tables.isEmpty then
      ⟨s "schema_issue",
       s "SQL references table(s) not present in the uploaded schema.", s "stop"⟩
    else if !v.unknown_columns.isEmpty then
      -- set comprehension of non-empty lowercased column names, then `any`
      if v.unknown_columns.any (fun e => !e.column.isEmpty && substrB (lowerStr e.column) q) then
        ⟨s "schema_issue",
         s "Requested column(s) appear not to exist in the schema.", s "stop"⟩
      else
        ⟨s "ai_issue",
         s "AI produced column names that do not exist in the schema.", s "retry_ai"⟩
    else if !v.invalid_joins.isEmpty then
      ⟨s "ai_issue",
       s "SQL join condition does not match any foreign key relationship.", s "retry_ai"⟩
    else if !v.type_mismatches.isEmpty then
      ⟨s "ai_issue",
       s "SQL compares incompatible data types (e.g., TEXT vs numeric).", s "retry_ai"⟩
    else if !v.unknown_aliases.isEmpty then
      ⟨s "ai_issue",
       s "SQL references aliases that were never defined in FROM/JOIN.", s "retry_ai"⟩
    else if !v.ambiguous_unqualified_columns.isEmpty then
      ⟨s "user_issue",
       s "Request leads to ambiguous columns; specify which table/field you mean.",
       s "ask_user"⟩
    else
      ⟨s "ai_issue", s "Validation failed in an unexpected way.", s "retry_ai"⟩

-- ---------------------------------------------------------------------------
-- src/app.py: SQL surface extractor, policy gate, auto-fix loop
-- ---------------------------------------------------------------------------

/-- Python `re.sub(r"^```(?:sql)?\s*", "", t, flags=re.IGNORECASE)`: drop a leading
code-fence delimiter with an optional `sql` tag and following whitespace. -/
def dropFenceHead (t : Chars) : Chars :=
  match t with
  | '`' :: '`' :: '`' :: r =>
    match pKwCI (s "sql") r with
    | some r2 => pWs0 r2
    | none => pWs0 r
  | _ => t

/-- Python `re.sub(r"\s*```$", "", t)`: drop a trailing code-fence delimiter and the
whitespace just before it. -/
def dropFenceTail (t : Chars) : Chars :=
  match t.reverse with
  | '`' :: '`' :: '`' :: r => (r.dropWhile isSpaceChar).reverse
  | _ => t

/-- Python `re.sub(r"^\s*sql\s*:\s*", "", t, flags=re.IGNORECASE)`: drop a leading
`sql:` label. -/
def dropSqlLabel (t : Chars) : Chars :=
  match pKwCI (s "sql") (pWs0 t) with
  | some r =>
    match pWs0 r with
    | ':' :: r2 => pWs0 r2
    | _ => t
  | none => t

/-- Python `re.match(r"^(select|with)\b", ...)`: the text starts with the whole word
`kw` (given lowercase), case-insensitively. -/
def startsWord (kw : Chars) (l : Chars) : Bool :=
  match pKwCI kw l with
  | some r => match r with
    | c :: _ => !isWordChar c
    | [] => true
  | none => false

/-- The leading `SELECT`/`WITH` requirement of `extract_sql`. -/
def startsSelectWith (l : Chars) : Bool :=
  startsWord (s "select") l || startsWord (s "with") l

/-- Python `extract_sql(text)`: strip fences and a `sql:` label, keep the first
non-empty `;`-separated segment re-terminated with `;`, and require a leading
`SELECT`/`WITH`; otherwise return the empty-string sentinel. -/
def extract_sql (text : Chars) : Chars :=
  if text.isEmpty then []
  else
    let t := dropSqlLabel (dropFenceTail (dropFenceHead (pyStrip text)))
    let parts := ((splitCh ';' t).map pyStrip).filter (fun p => !p.isEmpty)
    match parts with
    | [] => []
    | p :: _ =>
      let sqlC := p ++ [';']
      if startsSelectWith (pyStrip sqlC) then sqlC else []

/-- Python `reject_disallowed_sql(sql)`: models the two `raise ValueError` branches
as `Except.error`. -/
def reject_disallowed_sql (sql : Chars) : Except Chars Unit :=
  let st := pyStrip sql
  let low := lowerStr st
  if [s "create ", s "drop ", s "alter ", s "truncate ", s "grant ",
      s "revoke "].any (fun p => isPre p low) then
    Except.error (s "DDL / privileged statements are not supported.")
  else if ';' ∈ st.dropLast then
    Except.error (s "Multi-statement SQL is not supported.")
  else Except.ok ()

/-- The `needs_fix` condition of the auto-fix loop in `generate`. -/
def needs_fix (v : ValidationReport) : Bool :=
  !v.missing_tables.isEmpty || !v.unknown_columns.isEmpty ||
  !v.unknown_aliases.isEmpty || !v.unknown_identifiers.isEmpty ||
  !v.invalid_joins.isEmpty || !v.type_mismatches.isEmpty

/-- The post-LLM part of `ai_fix_sql`: extract the SQL surface from the raw
model output, fail (`raise ValueError`) when empty or rejected by the policy
gate. -/
def ai_fix_extract (raw : Chars) : Option Chars :=
  let sqlE := extract_sql raw
  if sqlE.isEmpty then none
  else
    match reject_disallowed_sql sqlE with
    | Except.ok _ => some sqlE
    | Except.error _ => none

/-- The auto-fix loop of `generate` (`for _ in range(2): ...`).  `fixRaw n`
is the raw text returned by the external repair capability on its `n`-th
invocation (`none` models a raised transient failure, which aborts the loop
after the call was made).  Returns the final `(sql, validation,
classification)` state and the number of `ai_fix_sql` invocations. -/
def autoFixLoop (schema : SchemaJson) (q : Chars) (fixRaw : Nat → Option Chars) :
    Nat → Nat → Chars × ValidationReport × Classification →
    (Chars × ValidationReport × Classification) × Nat
  | 0, calls, st => (st, calls)
  | n + 1, calls, st =>
    let cl := st.2.2
    if cl.cls ≠ s "ai_issue" then (st, calls)
    else if !needs_fix st.2.1 then (st, calls)
    else
      match fixRaw calls with
      | none => (st, calls + 1)
      | some raw =>
        match ai_fix_extract raw with
        | none => (st, calls + 1)
        | some sql' =>
          let v' := validate_against_schema sql' schema
          let c' := classify_issue v' q schema
          autoFixLoop schema q fixRaw n (calls + 1) (sql', v', c')

/-- The number of repair invocations made by one `generate` request, starting
from the state after the initial generation. -/
def repairCalls (schema : SchemaJson) (q : Chars) (fixRaw : Nat → Option Chars)
    (st : Chars × ValidationReport × Classification) : Nat :=
  (autoFixLoop schema q fixRaw 2 0 st).2

-- ---------------------------------------------------------------------------
-- src/schema_parser.py
-- ---------------------------------------------------------------------------

/-- The `ForeignKey` dataclass. -/
structure ForeignKey where
  column : Chars
  ref_table : Chars
  ref_column : Chars
  deriving DecidableEq, Repr

/-- The `TableMeta` dataclass. -/
structure TableMeta where
  name : Chars
  columns : List (Chars × Chars)
  primary_key : List Chars
  foreign_keys : List ForeignKey
  deriving DecidableEq, Repr

/-- Python `_clean_ident(s)`: strip whitespace, then remove one pair of surrounding
double quotes. -/
def cleanIdent (l : Chars) : Chars :=
  let t := pyStrip l
  match t with
  | c :: rest =>
    if c = dq && (match t.getLast? with | some e => e = dq | none => false) then
      (rest.reverse.drop 1).reverse
    else t
  | [] => t

/-- A table name `(?:\"[^\"]+\"|\w+)` — a non-empty double-quoted run or a
word run.  Returns the consumed text (quotes included) and the rest. -/
def pNameSeg (l : Chars) : Option (Chars × Chars) :=
  match l with
  | c :: rest =>
    if c = dq then
      let body := rest.takeWhile (fun x => x ≠ dq)
      if body.isEmpty then none
      else
        match rest.dropWhile (fun x => x ≠ dq) with
        | c2 :: r2 => some (c :: body ++ [c2], r2)
        | [] => none
    else pWordRun l
  | [] => none

/-- A possibly schema-qualified name
`(?:\"[^\"]+\"|\w+)(?:\.(?:\"[^\"]+\"|\w+))?`. -/
def pDottedName (l : Chars) : Option (Chars × Chars) := do
  let (n1, r1) ← pNameSeg l
  match r1 with
  | '.' :: r2 =>
    match pNameSeg r2 with
    | some (n2, r3) => some (n1 ++ '.' :: n2, r3)
    | none => some (n1, r1)
  | _ => some (n1, r1)

/-- The lazy body `\((?P<body>.*?)\)\s*;` of `CREATE_TABLE_RE`: accumulate
characters until the first `)` that is followed by optional whitespace and a
`;`; consume through that `;`. -/
def lazyBody : Nat → Chars → Chars → Option (Chars × Chars)
  | 0, _, _ => none
  | _ + 1, _, [] => none
  | fuel + 1, acc, c :: rest =>
    if c = ')' then
      match pWs0 rest with
      | ';' :: r2 => some (acc.reverse, r2)
      | _ => lazyBody fuel (c :: acc) rest
    else lazyBody fuel (c :: acc) rest

/-- One attempted match of `CREATE_TABLE_RE`
`CREATE\s+TABLE\s+(?:IF\s+NOT\s+EXISTS\s+)?(name)\s*\((body)\)\s*;`
at the head of the input.  Returns `(raw_name, body, rest)`. -/
def tryCreate (l : Chars) : Option (Chars × Chars × Chars) := do
  let r1 ← pKwCI (s "create") l
  let r2 ← pWs1 r1
  let r3 ← pKwCI (s "table") r2
  let r4 ← pWs1 r3
  -- greedy optional `IF NOT EXISTS`
  let r5 :=
    match pKwCI (s "if") r4 with
    | some a =>
      match pWs1 a with
      | some b =>
        match pKwCI (s "not") b with
        | some c =>
          match pWs1 c with
          | some d =>
            match pKwCI (s "exists") d with
            | some e =>
              match pWs1 e with
              | some f => f
              | none => r4
            | none => r4
          | none => r4
        | none => r4
      | none => r4
    | none => r4
  let (nm, r6) ← pDottedName r5
  let r7 := pWs0 r6
  let r8 ← pChar '(' r7
  let (body, r9) ← lazyBody (r8.length + 1) [] r8
  some (nm, body, r9)

/-- Python `CREATE_TABLE_RE.finditer` (no word boundary in the pattern: a match may
start anywhere). -/
def scanCreateAux : Nat → Chars → List (Chars × Chars)
  | 0, _ => []
  | _ + 1, [] => []
  | fuel + 1, c :: rest =>
    match tryCreate (c :: rest) with
    | some (nm, body, r) => (nm, body) :: scanCreateAux fuel r
    | none => scanCreateAux fuel rest

/-- All `(raw_name, body)` groups matched by `CREATE_TABLE_RE`. -/
def scanCreate (l : Chars) : List (Chars × Chars) := scanCreateAux (l.length + 1) l

/-- Python `_split_top_level_commas(body)`: split on commas outside parentheses and
outside single-quoted strings (a quote preceded by a backslash does not
toggle the string state); comma-separated parts are stripped and kept even
when empty, the stripped tail only when non-empty. -/
def splitTLC : Option Char → Nat → Bool → Chars → Chars → List Chars
  | _, _, _, buf, [] =>
    let tail := pyStrip buf.reverse
    if tail.isEmpty then [] else [tail]
  | prev, depth, inStr, buf, c :: rest =>
    if c = sq && prev ≠ some bsl then
      splitTLC (some c) depth (!inStr) (c :: buf) rest
    else if !inStr then
      if c = '(' then splitTLC (some c) (depth + 1) inStr (c :: buf) rest
      else if c = ')' then splitTLC (some c) (depth - 1) inStr (c :: buf) rest
      else if c = ',' && depth = 0 then
        pyStrip buf.reverse :: splitTLC (some c) depth inStr [] rest
      else splitTLC (some c) depth inStr (c :: buf) rest
    else splitTLC (some c) depth inStr (c :: buf) rest

/-- Python `_split_top_level_commas(body)`. -/
def splitTopLevelCommas (body : Chars) : List Chars := splitTLC none 0 false [] body

/-- One attempted match of `PK_RE` `PRIMARY\s+KEY\s*\((?P<cols>[^)]+)\)` at
the head of the input; returns the `cols` group. -/
def tryPkClause (l : Chars) : Option Chars := do
  let r1 ← pKwCI (s "primary") l
  let r2 ← pWs1 r1
  let r3 ← pKwCI (s "key") r2
  let r4 := pWs0 r3
  let r5 ← pChar '(' r4
  let cols := r5.takeWhile (fun x => x ≠ ')')
  if cols.isEmpty then none
  else
    match r5.dropWhile (fun x => x ≠ ')') with
    | ')' :: _ => some cols
    | _ => none

/-- Python `PK_RE.search(item)` (no word boundary in the pattern). -/
def pkSearchAux : Nat → Chars → Option Chars
  | 0, _ => none
  | _ + 1, [] => none
  | fuel + 1, c :: rest =>
    match tryPkClause (c :: rest) with
    | some cols => some cols
    | none => pkSearchAux fuel rest

/-- Python `PK_RE.search(item)`. -/
def pkSearch (l : Chars) : Option Chars := pkSearchAux (l.length + 1) l

/-- One attempted match of `FK_RE`
`FOREIGN\s+KEY\s*\((col)\)\s+REFERENCES\s+(ref_table)\s*\((ref_col)\)` at the
head of the input. -/
def tryFkClause (l : Chars) : Option (Chars × Chars × Chars) := do
  let r1 ← pKwCI (s "foreign") l
  let r2 ← pWs1 r1
  let r3 ← pKwCI (s "key") r2
  let r4 := pWs0 r3
  let r5 ← pChar '(' r4
  let col := r5.takeWhile (fun x => x ≠ ')')
  if col.isEmpty then none
  else do
    let r6 ←
      match r5.dropWhile (fun x => x ≠ ')') with
      | ')' :: r => some r
      | _ => none
    let r7 ← pWs1 r6
    let r8 ← pKwCI (s "references") r7
    let r9 ← pWs1 r8
    let (rt, r10) ← pDottedName r9
    let r11 := pWs0 r10
    let r12 ← pChar '(' r11
    let rc := r12.takeWhile (fun x => x ≠ ')')
    if rc.isEmpty then none
    else
      match r12.dropWhile (fun x => x ≠ ')') with
      | ')' :: _ => some (col, rt, rc)
      | _ => none

/-- Python `FK_RE.search(item)`. -/
def fkSearchAux : Nat → Chars → Option (Chars × Chars × Chars)
  | 0, _ => none
  | _ + 1, [] => none
  | fuel + 1, c :: rest =>
    match tryFkClause (c :: rest) with
    | some g => some g
    | none => fkSearchAux fuel rest

/-- Python `FK_RE.search(item)`. -/
def fkSearch (l : Chars) : Option (Chars × Chars × Chars) := fkSearchAux (l.length + 1) l

/-- Python `COLUMN_DEF_RE.match(item)`:
`^\s*(?P<col>\"[^\"]+\"|\w+)\s+(?P<type>[a-zA-Z][\w\s\(\),]*)`, anchored at
the start.  Returns `(col, raw_type)`. -/
def colDefMatch (l : Chars) : Option (Chars × Chars) := do
  let r0 := pWs0 l
  let (col, r1) ← pNameSeg r0
  let r2 ← pWs1 r1
  match r2 with
  | c :: rest =>
    if c.isAlpha then
      some (col, c :: rest.takeWhile
        (fun x => isWordChar x || isSpaceChar x || x = '(' || x = ')' || x = ','))
    else none
  | [] => none

/-- Whether one of the type-terminator keywords of the `re.split` pattern
`NOT\s+NULL|NULL|DEFAULT|PRIMARY\s+KEY|UNIQUE|REFERENCES` (each followed by
`\b`) matches at the head of the input, in the pattern's alternation order. -/
def typeTermAt (l : Chars) : Bool :=
  let afterOk : Chars → Bool := fun r =>
    match r with
    | c :: _ => !isWordChar c
    | [] => true
  let word : Chars → Chars → Bool := fun kw r =>
    match pKwCI kw r with
    | some r2 => afterOk r2
    | none => false
  let notNull :=
    match pKwCI (s "not") l with
    | some r1 =>
      match pWs1 r1 with
      | some r2 => word (s "null") r2
      | none => false
    | none => false
  let primaryKey :=
    match pKwCI (s "primary") l with
    | some r1 =>
      match pWs1 r1 with
      | some r2 => word (s "key") r2
      | none => false
    | none => false
  notNull || word (s "null") l || word (s "default") l || primaryKey ||
    word (s "unique") l || word (s "references") l

/-- Python `re.split(r"\s+(?:NOT\s+NULL|NULL|DEFAULT|PRIMARY\s+KEY|UNIQUE|REFERENCES)\b",
col_type)[0]`: the text before the first whitespace run that is followed by a
terminator keyword. -/
def typeSplitAux : Nat → Chars → Chars → Chars
  | 0, acc, _ => acc.reverse
  | _ + 1, acc, [] => acc.reverse
  | fuel + 1, acc, c :: rest =>
    if isSpaceChar c && typeTermAt (pWs0 (c :: rest)) then acc.reverse
    else typeSplitAux fuel (c :: acc) rest

/-- Cut the raw type text at the first terminator keyword. -/
def typeSplit (l : Chars) : Chars := typeSplitAux (l.length + 1) [] l

/-- Python `re.search(r"\bPRIMARY\s+KEY\b", item)`: inline `PRIMARY KEY` inside a
column clause. -/
def inlinePkAux : Nat → Bool → Chars → Bool
  | 0, _, _ => false
  | _ + 1, _, [] => false
  | fuel + 1, bnd, c :: rest =>
    let hit :=
      if bnd then
        match pKwCI (s "primary") (c :: rest) with
        | some r1 =>
          match pWs1 r1 with
          | some r2 =>
            match pKwCI (s "key") r2 with
            | some r3 =>
              match r3 with
              | c2 :: _ => !isWordChar c2
              | [] => true
            | none => false
          | none => false
        | none => false
      else false
    if hit then true else inlinePkAux fuel (!isWordChar c) rest

/-- Whether the clause contains an inline `PRIMARY KEY`. -/
def inlinePkSearch (l : Chars) : Bool := inlinePkAux (l.length + 1) true l

/-- One attempted match of the inline-`REFERENCES` pattern
`\bREFERENCES\s+(ref_table)\s*\((ref_col)\)` at the head of the input. -/
def tryInlineRef (l : Chars) : Option (Chars × Chars) := do
  let r1 ← pKwCI (s "references") l
  let r2 ← pWs1 r1
  let (rt, r3) ← pDottedName r2
  let r4 := pWs0 r3
  let r5 ← pChar '(' r4
  let rc := r5.takeWhile (fun x => x ≠ ')')
  if rc.isEmpty then none
  else
    match r5.dropWhile (fun x => x ≠ ')') with
    | ')' :: _ => some (rt, rc)
    | _ => none

/-- Python `re.search` for the inline-`REFERENCES` pattern. -/
def inlineRefAux : Nat → Bool → Chars → Option (Chars × Chars)
  | 0, _, _ => none
  | _ + 1, _, [] => none
  | fuel + 1, bnd, c :: rest =>
    match (if bnd then tryInlineRef (c :: rest) else none) with
    | some g => some g
    | none => inlineRefAux fuel (!isWordChar c) rest

/-- First inline `REFERENCES table(col)` in the clause, if any. -/
def inlineRefSearch (l : Chars) : Option (Chars × Chars) :=
  inlineRefAux (l.length + 1) true l

/-- Processing of one clause of a `CREATE TABLE` body: the `for item in
items` loop of `parse_schema_sql`.  State: `(columns, primary_key,
foreign_keys)`. -/
def parseItem (st : List (Chars × Chars) × List Chars × List ForeignKey)
    (item : Chars) : List (Chars × Chars) × List Chars × List ForeignKey :=
  let (columns, pk, fks) := st
  let it := pyStrip item
  match pkSearch it with
  | some cols =>
    let cs := ((splitCh ',' cols).map cleanIdent).filter (fun c => !c.isEmpty)
    (columns, pk ++ cs, fks)
  | none =>
    match fkSearch it with
    | some (colRaw, rtRaw, rcRaw) =>
      (columns, pk,
       fks ++ [⟨cleanIdent (firstSeg (splitCh ',' colRaw)),
               cleanIdent (lastSeg (splitCh '.' rtRaw)),
               cleanIdent (firstSeg (splitCh ',' rcRaw))⟩])
    | none =>
      match colDefMatch it with
      | some (colRaw, typeRaw) =>
        let col := cleanIdent colRaw
        let ty := pyStrip (typeSplit (pyStrip typeRaw))
        let columns' := upsert columns col ty
        let pk' := if inlinePkSearch it then pk ++ [col] else pk
        let fks' :=
          match inlineRefSearch it with
          | some (rtRaw, rcRaw) =>
            fks ++ [⟨col, cleanIdent (lastSeg (splitCh '.' rtRaw)),
                    cleanIdent (firstSeg (splitCh ',' rcRaw))⟩]
          | none => fks
        (columns', pk', fks')
      | none => st

/-- Build one `TableMeta` from a matched `CREATE TABLE` name and body. -/
def buildTable (name : Chars) (body : Chars) : TableMeta :=
  let st := (splitTopLevelCommas body).foldl parseItem ([], [], [])
  ⟨name, st.1, dedupAcc [] st.2.1, st.2.2⟩

/-- Python `parse_schema_sql(schema_sql)`: the tables dict (insertion-ordered, later
definitions of the same name overwrite). -/
def parse_schema_sql (ddl : Chars) : List (Chars × TableMeta) :=
  (scanCreate ddl).foldl
    (fun acc m =>
      let name := cleanIdent (lastSeg (splitCh '.' m.1))
      upsert acc name (buildTable name m.2))
    []

/-- Python `to_schema_json(tables)`. -/
def to_schema_json (tables : List (Chars × TableMeta)) : SchemaJson :=
  ⟨tables.map fun p =>
    (p.1, ⟨p.2.columns, p.2.primary_key,
           p.2.foreign_keys.map fun fk => ⟨fk.column, fk.ref_table, fk.ref_column⟩⟩)⟩

/-- Modelled from the spec: the deserializer of the persisted schema JSON
(the external collaborator of §6 reads back
`{"tables": {name: {"columns", "primary_key", "foreign_keys"}}}`; no
deserializer to `TableMeta` exists in src).  Each table entry is rebuilt from
its dict key and fields, per the spec's serialized form. -/
def from_schema_json (j : SchemaJson) : List (Chars × TableMeta) :=
  j.tables.map fun p =>
    (p.1, ⟨p.1, p.2.columns, p.2.primary_key,
           p.2.foreign_keys.map fun fk => ⟨fk.column, fk.ref_table, fk.ref_column⟩⟩)

-- ---------------------------------------------------------------------------
-- Concrete inputs used by the claims
-- ---------------------------------------------------------------------------

/-- The §8 DDL with employees/branches. -/
def ddl6 : Chars :=
  s "CREATE TABLE employees (emp_id INT PRIMARY KEY, branch_id INT REFERENCES branches(branch_id)); CREATE TABLE branches (branch_id INT PRIMARY KEY, branch_name TEXT);"

/-- The §8 schema as the validator consumes it. -/
def schemaEB : SchemaJson := to_schema_json (parse_schema_sql ddl6)

/-- The §8 type-mismatching join query. -/
def sqlJoinBad : Chars :=
  s "SELECT e.emp_id FROM employees e JOIN branches b ON e.emp_id = b.branch_name;"

/-- Two tables `a` and `b`, both declaring a column `name`. -/
def schemaAB : SchemaJson :=
  ⟨[(s "a", ⟨[(s "name", s "int")], [], []⟩),
    (s "b", ⟨[(s "name", s "int")], [], []⟩)]⟩

/-- The unqualified two-table query of §8. -/
def sqlC2 : Chars := s "SELECT name FROM a, b"

/-- A report whose only finding is one ambiguous unqualified column. -/
def ambOnlyReport : ValidationReport :=
  { tables_detected := [s "a", s "b"]
    missing_tables := []
    alias_map := [(s "a", s "a"), (s "b", s "b")]
    unknown_aliases := []
    unknown_columns := []
    unqualified_columns_resolved := []
    ambiguous_unqualified_columns := [⟨s "name", [s "a", s "b"]⟩]
    unknown_identifiers := []
    invalid_joins := []
    join_warnings := []
    type_mismatches := []
    notes := [] }

-- ---------------------------------------------------------------------------
-- C1
-- ---------------------------------------------------------------------------

/-- C1 counterexample: a report whose only finding is a non-empty
`ambiguous_unqualified_columns` list (all five hard-signal lists empty) is
classified `ok`/`stop`, not `user_issue`/`ask_user`: the `hard_signals`
guard of `classify_issue` returns before the ambiguity rule can fire. -/
theorem C1_counterexample :
    ambOnlyReport.ambiguous_unqualified_columns ≠ [] ∧
    ambOnlyReport.missing_tables = [] ∧ ambOnlyReport.unknown_columns = [] ∧
    ambOnlyReport.unknown_aliases = [] ∧ ambOnlyReport.invalid_joins = [] ∧
    ambOnlyReport.type_mismatches = [] ∧
    (classify_issue ambOnlyReport [] ⟨[]⟩).cls ≠ s "user_issue" ∧
    (classify_issue ambOnlyReport [] ⟨[]⟩).action ≠ s "ask_user" := by
  decide

/-- C1 (amended): for every validation report whose
`ambiguous_unqualified_columns` list is non-empty while `missing_tables`,
`unknown_columns`, `unknown_aliases`, `invalid_joins` and `type_mismatches`
are all empty, `classify_issue` returns class `ok` with action `stop`, for
every request text and schema (the `user_issue`/`ask_user` branch is
unreachable in this situation). -/
theorem C1_theorem (v : ValidationReport) (q : Chars) (sch : SchemaJson)
    (_hamb : v.ambiguous_unqualified_columns ≠ [])
    (h1 : v.missing_tables = []) (h2 : v.unknown_columns = [])
    (h3 : v.unknown_aliases = []) (h4 : v.invalid_joins = [])
    (h5 : v.type_mismatches = []) :
    classify_issue v q sch =
      ⟨s "ok", s "No major validation issues detected.", s "stop"⟩ := by
  simp [classify_issue, h1, h2, h3, h4, h5]

/-- C1 witness: the amended theorem applied to the concrete
ambiguity-only report. -/
theorem C1_witness :
    classify_issue ambOnlyReport [] ⟨[]⟩ =
      ⟨s "ok", s "No major validation issues detected.", s "stop"⟩ :=
  C1_theorem ambOnlyReport [] ⟨[]⟩ (by decide) rfl rfl rfl rfl rfl

-- ---------------------------------------------------------------------------
-- C2
-- ---------------------------------------------------------------------------

/-- C2 counterexample: validating `SELECT name FROM a, b` against the
two-table schema produces an empty `ambiguous_unqualified_columns` list —
`name` does not appear in it at all. -/
theorem C2_counterexample :
    (validate_against_schema sqlC2 schemaAB).ambiguous_unqualified_columns = [] := by
  decide

/-- C2 (amended): for the two-table schema with a shared column `name`,
validating `SELECT name FROM a, b` detects no tables (the alias scanner
binds nothing for `FROM a, b`), so `ambiguous_unqualified_columns` is empty
and `name` lands in `unknown_identifiers` instead. -/
theorem C2_theorem :
    (validate_against_schema sqlC2 schemaAB).tables_detected = [] ∧
    (validate_against_schema sqlC2 schemaAB).ambiguous_unqualified_columns = [] ∧
    (validate_against_schema sqlC2 schemaAB).unknown_identifiers = [s "name"] := by
  decide

-- ---------------------------------------------------------------------------
-- C3
-- ---------------------------------------------------------------------------

/-- The auto-fix loop makes at most `calls + n` repair invocations when run
with budget `n` starting from `calls` already made. -/
theorem autoFixLoop_calls_le (schema : SchemaJson) (q : Chars)
    (fixRaw : Nat → Option Chars) :
    ∀ (n calls : Nat) (st : Chars × ValidationReport × Classification),
      (autoFixLoop schema q fixRaw n calls st).2 ≤ calls + n := by
  intro n
  induction n with
  | zero => intro calls st; simp [autoFixLoop]
  | succ n ih =>
    intro calls st
    unfold autoFixLoop
    dsimp only
    repeat' split
    all_goals first
      | omega
      | simp
      | exact le_trans (ih (calls + 1) _) (by omega)

/-- C3: for every schema, request text and sequence of repair results, one
`generate` request invokes the external repair capability (`ai_fix_sql`) at
most 2 times, regardless of whether the repaired SQL still fails
validation. -/
theorem C3_theorem (schema : SchemaJson) (q : Chars) (fixRaw : Nat → Option Chars)
    (st : Chars × ValidationReport × Classification) :
    repairCalls schema q fixRaw st ≤ 2 := by
  simpa [repairCalls] using autoFixLoop_calls_le schema q fixRaw 2 0 st

-- ---------------------------------------------------------------------------
-- C6
-- ---------------------------------------------------------------------------

/-- C6: parsing the §8 DDL yields exactly the tables `employees` and
`branches`; `employees` has primary key `["emp_id"]` and the single
foreign-key edge `branch_id → branches.branch_id`. -/
theorem C6_theorem :
    (parse_schema_sql ddl6).map Prod.fst = [s "employees", s "branches"] ∧
    lookupA (parse_schema_sql ddl6) (s "employees") =
      some ⟨s "employees",
            [(s "emp_id", s "INT"), (s "branch_id", s "INT")],
            [s "emp_id"],
            [⟨s "branch_id", s "branches", s "branch_id"⟩]⟩ ∧
    lookupA (parse_schema_sql ddl6) (s "branches") =
      some ⟨s "branches",
            [(s "branch_id", s "INT"), (s "branch_name", s "TEXT")],
            [s "branch_id"], []⟩ := by
  decide

-- ---------------------------------------------------------------------------
-- C7
-- ---------------------------------------------------------------------------

/-- C7: against the §8 employees/branches schema, the query joining
`e.emp_id` to `b.branch_name` yields a non-empty `invalid_joins` list and a
`"join"`-kind entry in `type_mismatches`. -/
theorem C7_theorem :
    (validate_against_schema sqlJoinBad schemaEB).invalid_joins ≠ [] ∧
    ∃ m ∈ (validate_against_schema sqlJoinBad schemaEB).type_mismatches,
      m.kind = s "join" := by
  decide

-- ---------------------------------------------------------------------------
-- C4
-- ---------------------------------------------------------------------------

/-- Python `List.any` only depends on the predicate's values on the members. -/
theorem any_congr_mem {α : Type} {l : List α} {f g : α → Bool}
    (h : ∀ x ∈ l, f x = g x) : l.any f = l.any g := by
  induction l with
  | nil => rfl
  | cons a r ih =>
    simp only [List.any_cons]
    rw [h a (by simp), ih fun x hx => h x (by simp [hx])]

/-- C4: for a validation report with `missing_tables` empty and
`unknown_columns` non-empty (whose entries carry the validator's non-empty,
lowercased column names), `classify_issue` returns `schema_issue`/`stop`
when some unknown column name is a substring of the lowercased request text
and `ai_issue`/`retry_ai` otherwise, for every request text and schema. -/
theorem C4_theorem (v : ValidationReport) (q : Chars) (sch : SchemaJson)
    (h1 : v.missing_tables = []) (h2 : v.unknown_columns ≠ [])
    (h3 : ∀ e ∈ v.unknown_columns, e.column ≠ [] ∧ lowerStr e.column = e.column) :
    classify_issue v q sch =
      if v.unknown_columns.any (fun e => substrB e.column (lowerStr q)) then
        ⟨s "schema_issue",
         s "Requested column(s) appear not to exist in the schema.", s "stop"⟩
      else
        ⟨s "ai_issue",
         s "AI produced column names that do not exist in the schema.",
         s "retry_ai"⟩ := by
  have hany : v.unknown_columns.any
      (fun e => !e.column.isEmpty && substrB (lowerStr e.column) (lowerStr q)) =
      v.unknown_columns.any (fun e => substrB e.column (lowerStr q)) := by
    refine any_congr_mem fun e he => ?_
    obtain ⟨hne, hlow⟩ := h3 e he
    simp [hlow, List.isEmpty_iff, hne]
  have hEmpty : v.unknown_columns.isEmpty = false := by
    cases hv : v.unknown_columns with
    | nil => exact absurd hv h2
    | cons c cs => rfl
  simp only [classify_issue, h1, hEmpty, hany]
  simp

/-- C4 witness: a concrete unknown-columns report classified both ways,
via the theorem. -/
theorem C4_witness :
    (classify_issue
        { tables_detected := [s "employees"], missing_tables := [],
          alias_map := [(s "e", s "employees")], unknown_aliases := [],
          unknown_columns := [⟨s "employees", s "e", s "salary"⟩],
          unqualified_columns_resolved := [], ambiguous_unqualified_columns := [],
          unknown_identifiers := [s "salary"], invalid_joins := [],
          join_warnings := [], type_mismatches := [], notes := [] }
        (s "show the salary of everyone") ⟨[]⟩) =
      ⟨s "schema_issue",
       s "Requested column(s) appear not to exist in the schema.", s "stop"⟩ := by
  rw [C4_theorem _ _ _ rfl (by decide) (by decide)]
  decide

-- ---------------------------------------------------------------------------
-- C5 / C9: shape of the surface extractor's output
-- ---------------------------------------------------------------------------

/-- The separator never occurs inside a segment produced by `splitCh`. -/
theorem splitCh_not_mem (sep : Char) :
    ∀ (l : Chars), ∀ seg ∈ splitCh sep l, sep ∉ seg := by
  intro l
  induction l with
  | nil =>
    intro seg hseg
    simp only [splitCh] at hseg
    simp only [List.mem_singleton] at hseg
    simp [hseg]
  | cons c rest ih =>
    intro seg hseg
    simp only [splitCh] at hseg
    by_cases hc : c = sep
    · rw [if_pos hc] at hseg
      rcases List.mem_cons.mp hseg with h | h
      · simp [h]
      · exact ih seg h
    · rw [if_neg hc] at hseg
      cases hrec : splitCh sep rest with
      | nil => rw [hrec] at hseg; simp at hseg; subst hseg; simp [Ne.symm hc]
      | cons p ps =>
        rw [hrec] at hseg
        rcases List.mem_cons.mp hseg with h | h
        · subst h
          intro hmem
          rcases List.mem_cons.mp hmem with h' | h'
          · exact hc h'.symm
          · exact ih p (by rw [hrec]; exact List.mem_cons_self p ps) h'
        · exact ih seg (by rw [hrec]; exact List.mem_cons_of_mem p h)

/-- Python `pyStrip` only removes characters: membership is preserved. -/
theorem mem_of_mem_pyStrip {x : Char} {l : Chars} (h : x ∈ pyStrip l) : x ∈ l := by
  unfold pyStrip stripL at h
  rw [List.mem_reverse] at h
  have h2 : x ∈ (l.dropWhile isSpaceChar).reverse :=
    (List.dropWhile_sublist isSpaceChar).mem h
  rw [List.mem_reverse] at h2
  exact (List.dropWhile_sublist isSpaceChar).mem h2

/-- The head of a `dropWhile` result falsifies the predicate. -/
theorem dropWhile_head_false {p : Char → Bool} :
    ∀ {l : Chars} {c : Char} {r : Chars}, List.dropWhile p l = c :: r → p c = false := by
  intro l
  induction l with
  | nil => intro c r h; simp [List.dropWhile] at h
  | cons a as ih =>
    intro c r h
    by_cases ha : p a
    · rw [List.dropWhile_cons_of_pos ha] at h; exact ih h
    · rw [List.dropWhile_cons_of_neg ha] at h
      injection h with h1 _
      rw [← h1]
      simpa using ha

/-- Python `pyStrip` output is a prefix of the left-stripped input. -/
theorem pyStrip_isPrefix (l : Chars) : pyStrip l <+: stripL l := by
  unfold pyStrip
  rw [← List.reverse_suffix, List.reverse_reverse]
  exact List.dropWhile_suffix isSpaceChar

/-- The head of a non-empty `pyStrip` result is not whitespace. -/
theorem pyStrip_head_not_space {l : Chars} {c : Char} {r : Chars}
    (h : pyStrip l = c :: r) : isSpaceChar c = false := by
  obtain ⟨tl, ht⟩ := pyStrip_isPrefix l
  rw [h] at ht
  have h2 : List.dropWhile isSpaceChar l = c :: (r ++ tl) := by
    simp only [stripL] at ht
    rw [← ht]
    simp
  exact dropWhile_head_false h2

/-- A list that starts with a non-space character and ends with `;` is fixed
by `pyStrip`. -/
theorem pyStrip_fixed {c : Char} (r : Chars) (hc : isSpaceChar c = false) :
    pyStrip (c :: (r ++ [';'])) = c :: (r ++ [';']) := by
  unfold pyStrip stripL
  rw [List.dropWhile_cons_of_neg (by simp [hc])]
  have : (c :: (r ++ [';'])).reverse = ';' :: (c :: r).reverse := by
    rw [show c :: (r ++ [';']) = (c :: r) ++ [';'] by simp]
    simp
  rw [this, List.dropWhile_cons_of_neg (by decide)]
  simp

/-- Structure of every `extract_sql` result: either the empty sentinel, or a
`pyStrip`-fixed statement that starts with `SELECT`/`WITH`, ends with `;`
and has no earlier `;`. -/
theorem extract_sql_shape (t : Chars) :
    extract_sql t = [] ∨
      (startsSelectWith (extract_sql t) = true ∧
       pyStrip (extract_sql t) = extract_sql t ∧
       ∃ p, extract_sql t = p ++ [';'] ∧ ';' ∉ p) := by
  unfold extract_sql
  by_cases h0 : t.isEmpty
  · simp [h0]
  · rw [if_neg (by simpa using h0)]
    dsimp only
    split
    · exact Or.inl rfl
    · rename_i p rest hp
      have hpmem : p ∈ p :: rest := List.mem_cons_self p rest
      rw [← hp] at hpmem
      obtain ⟨hpmap, hpne⟩ := List.mem_filter.mp hpmem
      obtain ⟨seg, hsegmem, hpstrip⟩ := List.mem_map.mp hpmap
      have hsemi : ';' ∉ p := by
        intro hin
        exact (splitCh_not_mem ';' _ seg hsegmem)
          (mem_of_mem_pyStrip (hpstrip ▸ hin))
      obtain ⟨c, r, rfl⟩ : ∃ c r, p = c :: r := by
        cases p with
        | nil => simp at hpne
        | cons c r => exact ⟨c, r, rfl⟩
      have hfix : pyStrip ((c :: r) ++ [';']) = (c :: r) ++ [';'] := by
        rw [List.cons_append]
        exact pyStrip_fixed r (pyStrip_head_not_space hpstrip)
      rw [hfix]
      split
      · rename_i hstart
        exact Or.inr ⟨hstart, hfix, c :: r, rfl, hsemi⟩
      · exact Or.inl rfl

/-- C5: every `extract_sql` result is either the empty-string sentinel or a
statement that starts with `SELECT`/`WITH` (case-insensitively), ends with
`;` and contains no `;` before its final character; in particular the input
`CREATE TABLE x (a int);` yields the empty string. -/
theorem C5_theorem :
    (∀ t : Chars, extract_sql t = [] ∨
      (startsSelectWith (extract_sql t) = true ∧
       ∃ p, extract_sql t = p ++ [';'] ∧ ';' ∉ p)) ∧
    extract_sql (s "CREATE TABLE x (a int);") = [] := by
  constructor
  · intro t
    rcases extract_sql_shape t with h | ⟨h1, _, h3⟩
    · exact Or.inl h
    · exact Or.inr ⟨h1, h3⟩
  · decide

/-- From `startsSelectWith` the first character lowercases to `s` or `w`. -/
theorem startsSelectWith_head {l : Chars} (h : startsSelectWith l = true) :
    ∃ c r, l = c :: r ∧ (c.toLower = 's' ∨ c.toLower = 'w') := by
  unfold startsSelectWith startsWord at h
  rcases Bool.or_eq_true_iff.mp h with h' | h'
  · cases hk : pKwCI (s "select") l with
    | none => rw [hk] at h'; simp at h'
    | some r2 =>
      rw [show s "select" = 's' :: s "elect" from rfl] at hk
      cases l with
      | nil => simp [pKwCI] at hk
      | cons c rest =>
        refine ⟨c, rest, rfl, Or.inl ?_⟩
        by_cases hc : c.toLower = 's'
        · exact hc
        · simp [pKwCI, hc] at hk
  · cases hk : pKwCI (s "with") l with
    | none => rw [hk] at h'; simp at h'
    | some r2 =>
      rw [show s "with" = 'w' :: s "ith" from rfl] at hk
      cases l with
      | nil => simp [pKwCI] at hk
      | cons c rest =>
        refine ⟨c, rest, rfl, Or.inr ?_⟩
        by_cases hc : c.toLower = 'w'
        · exact hc
        · simp [pKwCI, hc] at hk

/-- The disallowed-prefix scan fails on anything whose first character
lowercases to `s` or `w`. -/
theorem disallowed_any_false (c : Char) (m : Chars)
    (hc : c.toLower = 's' ∨ c.toLower = 'w') :
    ([s "create ", s "drop ", s "alter ", s "truncate ", s "grant ",
      s "revoke "].any (fun p => isPre p (c.toLower :: m))) = false := by
  rcases hc with h | h <;> rw [h] <;> rfl

/-- C9: a non-empty `extract_sql` result always passes
`reject_disallowed_sql`: neither policy-gate error branch is reachable
downstream of the surface extractor. -/
theorem C9_theorem (t : Chars) (h : extract_sql t ≠ []) :
    reject_disallowed_sql (extract_sql t) = Except.ok () := by
  rcases extract_sql_shape t with h0 | ⟨hstart, hfix, p, hp, hsemi⟩
  · exact absurd h0 h
  · obtain ⟨c, r, hcons, hc⟩ := startsSelectWith_head hstart
    unfold reject_disallowed_sql
    dsimp only
    rw [hfix]
    have hlow : lowerStr (extract_sql t) = c.toLower :: lowerStr r := by
      rw [hcons]; rfl
    rw [hlow, disallowed_any_false c (lowerStr r) hc]
    simp only [Bool.false_eq_true, if_false]
    rw [hp, List.dropLast_concat]
    simp [hsemi]

/-- C9 witness: the theorem applied to a concrete generator output. -/
theorem C9_witness :
    extract_sql (s "SELECT 1") ≠ [] ∧
    reject_disallowed_sql (extract_sql (s "SELECT 1")) = Except.ok () :=
  ⟨by decide, C9_theorem (s "SELECT 1") (by decide)⟩

-- ---------------------------------------------------------------------------
-- C8: serialization round-trip
-- ---------------------------------------------------------------------------

/-- Python `buildTable` stores the table name it is given. -/
theorem buildTable_name (n : Chars) (b : Chars) : (buildTable n b).name = n := rfl

/-- Python `upsert` preserves the key-equals-stored-name invariant. -/
theorem upsert_name_inv {l : List (Chars × TableMeta)} {k : Chars} {v : TableMeta}
    (hl : ∀ p ∈ l, p.2.name = p.1) (hv : v.name = k) :
    ∀ p ∈ upsert l k v, p.2.name = p.1 := by
  induction l with
  | nil => intro p hp; simp only [upsert, List.mem_singleton] at hp; rw [hp]; exact hv
  | cons q rest ih =>
    intro p hp
    simp only [upsert] at hp
    by_cases hk : q.1 = k
    · rw [if_pos hk] at hp
      rcases List.mem_cons.mp hp with h | h
      · rw [h]; exact hv
      · exact hl p (List.mem_cons_of_mem q h)
    · rw [if_neg hk] at hp
      rcases List.mem_cons.mp hp with h | h
      · rw [h]; exact hl q (List.mem_cons_self q rest)
      · exact ih (fun r hr => hl r (List.mem_cons_of_mem q hr)) p h

/-- Every entry of a parsed schema stores its own dict key as its name. -/
theorem parse_name_inv (ddl : Chars) :
    ∀ p ∈ parse_schema_sql ddl, p.2.name = p.1 := by
  unfold parse_schema_sql
  generalize scanCreate ddl = ms
  have main : ∀ (ms : List (Chars × Chars)) (acc : List (Chars × TableMeta)),
      (∀ p ∈ acc, p.2.name = p.1) →
      ∀ p ∈ ms.foldl (fun acc m =>
          let name := cleanIdent (lastSeg (splitCh '.' m.1))
          upsert acc name (buildTable name m.2)) acc, p.2.name = p.1 := by
    intro ms
    induction ms with
    | nil => intro acc hacc p hp; exact hacc p hp
    | cons m rest ih =>
      intro acc hacc p hp
      rw [List.foldl_cons] at hp
      exact ih _ (upsert_name_inv hacc (buildTable_name _ _)) p hp
  exact main ms [] (by intro p hp; simp at hp)

/-- Converting a foreign-key list to its JSON form and back is the
identity. -/
theorem fk_roundtrip (fks : List ForeignKey) :
    ((fks.map fun fk => (⟨fk.column, fk.ref_table, fk.ref_column⟩ : FKJson)).map
      fun fk => (⟨fk.column, fk.ref_table, fk.ref_column⟩ : ForeignKey)) = fks := by
  induction fks with
  | nil => rfl
  | cons fk rest ih => simp [ih]

/-- The round-trip holds for every table list satisfying the key-name
invariant. -/
theorem roundtrip_of_inv (T : List (Chars × TableMeta))
    (hT : ∀ p ∈ T, p.2.name = p.1) :
    from_schema_json (to_schema_json T) = T := by
  induction T with
  | nil => rfl
  | cons p rest ih =>
    have hname := hT p (List.mem_cons_self p rest)
    have htail := ih (fun q hq => hT q (List.mem_cons_of_mem p hq))
    obtain ⟨k, nm, cols, pk, fks⟩ := p
    simp only at hname
    simp only [from_schema_json, to_schema_json, List.map_cons] at htail ⊢
    rw [List.cons.injEq]
    refine ⟨?_, htail⟩
    simp only [Prod.mk.injEq, TableMeta.mk.injEq, hname, true_and, eq_self_iff_true]
    exact fk_roundtrip fks

/-- C8: for every schema model produced by the schema extractor,
deserializing the serialized form (as the persistence layer re-reads it)
recovers the model field-for-field: `from_schema_json (to_schema_json M) =
M`. -/
theorem C8_theorem (ddl : Chars) :
    from_schema_json (to_schema_json (parse_schema_sql ddl)) =
      parse_schema_sql ddl :=
  roundtrip_of_inv (parse_schema_sql ddl) (parse_name_inv ddl)

-- ---------------------------------------------------------------------------
-- C10: table-named qualifiers never produce findings
-- ---------------------------------------------------------------------------

/-- Membership in the keys of an `upsert` result. -/
theorem mem_keys_upsert {β : Type} (l : List (Chars × β)) (k : Chars) (v : β)
    (x : Chars) : x ∈ keysA (upsert l k v) ↔ x ∈ keysA l ∨ x = k := by
  induction l with
  | nil => simp [upsert, keysA]
  | cons q rest ih =>
    obtain ⟨qk, qv⟩ := q
    simp only [upsert]
    by_cases hk : qk = k
    · rw [if_pos hk]
      simp only [keysA, List.map_cons, List.mem_cons, hk]
      tauto
    · rw [if_neg hk]
      simp only [keysA, List.map_cons, List.mem_cons]
      simp only [keysA] at ih
      rw [ih]
      tauto

/-- Every lowered schema table name is a key of `cols_by_table`. -/
theorem mem_keys_colsByTable (schema : SchemaJson) (x : Chars)
    (h : x ∈ schema.tables.map (fun p => lowerStr p.1)) :
    x ∈ keysA (colsByTable schema) := by
  unfold colsByTable
  have main : ∀ (ts : List (Chars × TableJson)) (acc : List (Chars × List Chars)),
      x ∈ keysA acc ∨ x ∈ ts.map (fun p => lowerStr p.1) →
      x ∈ keysA (ts.foldl
        (fun m p => upsert m (lowerStr p.1) (p.2.columns.map (fun c => lowerStr c.1)))
        acc) := by
    intro ts
    induction ts with
    | nil =>
      intro acc h'
      rcases h' with h' | h'
      · exact h'
      · simp at h'
    | cons t rest ih =>
      intro acc h'
      rw [List.foldl_cons]
      apply ih
      rcases h' with h' | h'
      · exact Or.inl ((mem_keys_upsert _ _ _ _).mpr (Or.inl h'))
      · rw [List.map_cons, List.mem_cons] at h'
        rcases h' with h'' | h''
        · exact Or.inl ((mem_keys_upsert _ _ _ _).mpr (Or.inr h''))
        · exact Or.inr h''
  exact main schema.tables [] (Or.inr h)

/-- Aliases recorded as unknown by the qualified-reference pass are never
keys of `cols_by_table`. -/
theorem qualFold_ua_sub (am : List (Chars × Chars)) (cb : List (Chars × List Chars)) :
    ∀ (refs : List (Chars × Chars)) (st : List Chars × List UnknownColumn × List Chars)
      (x : Chars),
      x ∈ (refs.foldl (qualStep am cb) st).1 → x ∈ st.1 ∨ x ∉ keysA cb := by
  intro refs
  induction refs with
  | nil => intro st x h; exact Or.inl h
  | cons ac refs ih =>
    intro st x h
    rw [List.foldl_cons] at h
    rcases ih (qualStep am cb st ac) x h with h' | h'
    · obtain ⟨ua, uc, ui⟩ := st
      unfold qualStep at h'
      dsimp only at h'
      cases hlk : lookupA am (lowerStr ac.1) with
      | none =>
        rw [hlk] at h'
        dsimp only at h'
        split at h'
        · rename_i hcond
          dsimp only at h'
          rcases List.mem_append.mp h' with h'' | h''
          · exact Or.inl h''
          · rw [List.mem_singleton] at h''
            subst h''
            exact Or.inr (by simpa using (Bool.and_eq_true ..|>.mp hcond).1)
        · exact Or.inl h'
      | some t =>
        rw [hlk] at h'
        dsimp only at h'
        split at h' <;> exact Or.inl h'
    · exact Or.inr h'

/-- Unknown-column entries recorded by the qualified-reference pass always
carry an alias bound in the alias map. -/
theorem qualFold_uc_alias (am : List (Chars × Chars)) (cb : List (Chars × List Chars)) :
    ∀ (refs : List (Chars × Chars)) (st : List Chars × List UnknownColumn × List Chars)
      (e : UnknownColumn),
      e ∈ (refs.foldl (qualStep am cb) st).2.1 →
      e ∈ st.2.1 ∨ lookupA am e.aliasName ≠ none := by
  intro refs
  induction refs with
  | nil => intro st e h; exact Or.inl h
  | cons ac refs ih =>
    intro st e h
    rw [List.foldl_cons] at h
    rcases ih (qualStep am cb st ac) e h with h' | h'
    · obtain ⟨ua, uc, ui⟩ := st
      unfold qualStep at h'
      dsimp only at h'
      cases hlk : lookupA am (lowerStr ac.1) with
      | none =>
        rw [hlk] at h'
        dsimp only at h'
        split at h' <;> exact Or.inl h'
      | some t =>
        rw [hlk] at h'
        dsimp only at h'
        split at h'
        · dsimp only at h'
          rcases List.mem_append.mp h' with h'' | h''
          · exact Or.inl h''
          · rw [List.mem_singleton] at h''
            subst h''
            exact Or.inr (by simp [hlk])
        · exact Or.inl h'
    · exact Or.inr h'

/-- C10: a qualified reference whose qualifier is not a bound alias but
matches a schema table name (case-insensitively) contributes no finding: the
lowered qualifier never appears in `unknown_aliases`, and no
`unknown_columns` entry carries it as its alias — for every schema and SQL
text, even when the referenced column does not exist in that table. -/
theorem C10_theorem (schema : SchemaJson) (sql t : Chars)
    (hA : lookupA (build_alias_map (stripStrings sql)) (lowerStr t) = none)
    (hT : lowerStr t ∈ schema.tables.map (fun p => lowerStr p.1)) :
    lowerStr t ∉ (validate_against_schema sql schema).unknown_aliases ∧
    ∀ e ∈ (validate_against_schema sql schema).unknown_columns,
      e.aliasName ≠ lowerStr t := by
  have hkeys := mem_keys_colsByTable schema _ hT
  have hua : (validate_against_schema sql schema).unknown_aliases =
      (qualFold (build_alias_map (stripStrings sql)) (colsByTable schema)
        (scanQual (stripStrings sql))).1 := rfl
  have huc : (validate_against_schema sql schema).unknown_columns =
      (qualFold (build_alias_map (stripStrings sql)) (colsByTable schema)
        (scanQual (stripStrings sql))).2.1 := rfl
  constructor
  · intro hmem
    rw [hua] at hmem
    rcases qualFold_ua_sub _ _ _ _ _ hmem with h | h
    · simp at h
    · exact h hkeys
  · intro e he heq
    rw [huc] at he
    rcases qualFold_uc_alias _ _ _ _ _ he with h | h
    · simp at h
    · rw [heq] at h
      exact h hA

/-- C10 witness: a schema-table qualifier with a non-existent column yields
no unknown-alias and no unknown-column finding. -/
theorem C10_witness :
    lookupA (build_alias_map (stripStrings (s "SELECT emp.salary FROM emp e")))
        (lowerStr (s "emp")) = none ∧
    lowerStr (s "emp") ∈
      (⟨[(s "emp", ⟨[(s "x", s "int")], [], []⟩)]⟩ : SchemaJson).tables.map
        (fun p => lowerStr p.1) ∧
    lowerStr (s "emp") ∉
      (validate_against_schema (s "SELECT emp.salary FROM emp e")
        ⟨[(s "emp", ⟨[(s "x", s "int")], [], []⟩)]⟩).unknown_aliases ∧
    ∀ e ∈ (validate_against_schema (s "SELECT emp.salary FROM emp e")
        ⟨[(s "emp", ⟨[(s "x", s "int")], [], []⟩)]⟩).unknown_columns,
      e.aliasName ≠ lowerStr (s "emp") := by
  have h := C10_theorem ⟨[(s "emp", ⟨[(s "x", s "int")], [], []⟩)]⟩
    (s "SELECT emp.salary FROM emp e") (s "emp") (by decide) (by decide)
  exact ⟨by decide, by decide, h.1, h.2⟩

end QueryWave
